import Mathlib

/-!
Shallow embedding of the VocalText voice-to-doc React application
(variants in src/src/App.tsx and src/unnamed/part_001).

Strings from the source are modelled as lists of characters; timestamps
from the platform clock are explicit integer parameters of each handler.
React state updates issued inside one event handler are applied to the
snapshot the handler was invoked with, matching the framework semantics
where queued state writes only become visible after the handler returns.
-/

namespace VocalText

abbrev Str := List Char

inductive RecordingStatus where
  | idle
  | recording
  | transcribing
  | complete
  | error
  deriving DecidableEq

inductive Language where
  | enUS
  | zhCN
  deriving DecidableEq

structure ErrorState where
  message : Str
  details : Option Str
  deriving DecidableEq

/-- Persistent record; the part_001 variant includes the word count field. -/
structure StoredTranscript where
  id : Str
  text : Str
  language : Language
  timestamp : Int
  wordCount : Nat
  deriving DecidableEq

/-- One slot of a recognition result set: the text of the first
alternative together with its final flag. -/
structure ResultSlot where
  transcript : Str
  isFinal : Bool
  deriving DecidableEq

def ONE_DAY_MS : Int := 24 * 60 * 60 * 1000

def MAX_WORD_COUNT : Nat := 88888

def isWs (c : Char) : Bool := c.isWhitespace

/-- JS String.prototype.trim on a character list. -/
def trimList (l : Str) : Str :=
  ((l.dropWhile isWs).reverse.dropWhile isWs).reverse

/-- Count of maximal non-whitespace runs; the flag records whether the
previous character belonged to a run. -/
def countRunsAux : Str → Bool → Nat
  | [], _ => 0
  | c :: rest, inRun =>
    if isWs c then countRunsAux rest false
    else (if inRun then 0 else 1) + countRunsAux rest true

/-- JS word count used by the source: text.trim().split(re-ws).length.
On a whitespace-only string the JS split yields a singleton list holding
the empty string, hence count 1. -/
def countWordsJS (l : Str) : Nat :=
  let t := trimList l
  if t = [] then 1 else countRunsAux t false

/-- Date.now().toString() for the generated record id. -/
def intToStr (n : Int) : Str := (toString n).data

def maxWordError : ErrorState :=
  { message := "Maximum Word Count Reached".data
  , details := some "Recording stopped after reaching 88888 words.".data }

def recognitionFailure (code : Str) : ErrorState :=
  { message := "Recognition Error".data
  , details := some ("Error: ".data ++ code ++ ". Please try again.".data) }

/-- Component state: the React useState slots, the two refs, and the
localStorage cell under the fixed key (none when the key is absent).
The field effectTranscript is the transcript value captured by the
closures the effect installed at its most recent run; the effect only
re-runs when status or selectedLanguage change, so during a recording
session this capture is the value the session started with. The model
refreshes the capture at session start, the only effect re-run that
precedes a recognition callback delivery in the modelled scenarios. -/
structure AppState where
  status : RecordingStatus
  transcript : Str
  interimTranscript : Str
  error : Option ErrorState
  selectedLanguage : Language
  storedTranscripts : List StoredTranscript
  recordingStartTime : Option Int
  transcriptRef : Str
  recognitionRefSet : Bool
  recRunning : Bool
  storage : Option (List StoredTranscript)
  effectTranscript : Str
  deriving DecidableEq

/-- The for-loop over event.results: final slots are appended to the
final accumulator followed by one space, non-final slots to the interim
accumulator. -/
def resultLoop : List ResultSlot → Str → Str → Str × Str
  | [], fin, interim => (fin, interim)
  | r :: rest, fin, interim =>
    if r.isFinal then resultLoop rest (fin ++ r.transcript ++ [' ']) interim
    else resultLoop rest fin (interim ++ r.transcript)

/-- Concatenation of the final slots of a result set, each suffixed with
one space. -/
def finalsConcat : List ResultSlot → Str
  | [] => []
  | r :: rest => if r.isFinal then r.transcript ++ ' ' :: finalsConcat rest else finalsConcat rest

/-- Concatenation of the non-final slots of a result set. -/
def interimsConcat : List ResultSlot → Str
  | [] => []
  | r :: rest => if r.isFinal then interimsConcat rest else r.transcript ++ interimsConcat rest

theorem resultLoop_eq (rs : List ResultSlot) : ∀ fin interim : Str,
    resultLoop rs fin interim = (fin ++ finalsConcat rs, interim ++ interimsConcat rs) := by
  induction rs with
  | nil => intro fin interim; simp [resultLoop, finalsConcat, interimsConcat]
  | cons r rest ih =>
    intro fin interim
    by_cases h : r.isFinal
    · simp [resultLoop, finalsConcat, interimsConcat, h, ih, List.append_assoc]
    · simp [resultLoop, finalsConcat, interimsConcat, h, ih, List.append_assoc]

/-- handleStartRecording (part_001 variant): clears the texts, the error
and the ref, records the start time and enters recording. The status
change re-runs the effect at the following render, so the closures it
installs capture the cleared transcript. -/
def handleStartRecording (s : AppState) (now : Int) : AppState :=
  { s with transcript := []
         , interimTranscript := []
         , error := none
         , transcriptRef := []
         , recordingStartTime := some now
         , status := RecordingStatus.recording
         , recRunning := true
         , effectTranscript := [] }

/-- handleStopRecording (part_001 variant): guarded by the recognition
ref; stops the recognizer, enters complete, clears the start time, and
persists the snapshot transcript when its trim is non-empty. -/
def handleStopRecording (s : AppState) (now : Int) : AppState :=
  if s.recognitionRefSet then
    let s1 := { s with recRunning := false
                     , status := RecordingStatus.complete
                     , recordingStartTime := none }
    if trimList s.transcript ≠ [] then
      let nt : StoredTranscript :=
        { id := intToStr now
        , text := s.transcript
        , language := s.selectedLanguage
        , timestamp := now
        , wordCount := countWordsJS s.transcript }
      let updated := s.storedTranscripts ++ [nt]
      { s1 with storage := some updated, storedTranscripts := updated }
    else s1
  else s

/-- recognition.onresult (part_001 variant): the final accumulator is
seeded with transcriptRef.current. On breach of the word ceiling the
handler invokes the handleStopRecording closure captured at the last
effect run: that closure reads the captured transcript (empty for a
session started normally), so its persistence guard sees the captured
value, not the current one; since the stop writes no transcript state
the visible transcript keeps its current value, restored here after the
stale call. The limit error is then recorded and the handler returns
before the text updates are applied. -/
def onresult (s : AppState) (results : List ResultSlot) (now : Int) : AppState :=
  let p := resultLoop results s.transcriptRef []
  if countWordsJS p.1 > MAX_WORD_COUNT then
    { handleStopRecording { s with transcript := s.effectTranscript } now with
        transcript := s.transcript, error := some maxWordError }
  else
    { s with transcriptRef := p.1, transcript := p.1, interimTranscript := p.2 }

/-- recognition.onresult (src/src/App.tsx variant): the final accumulator
is seeded with the empty string, so each delivery fully replaces the
transcript with the final slots of the delivered set. -/
def onresultSimple (s : AppState) (results : List ResultSlot) : AppState :=
  let p := resultLoop results [] []
  { s with transcript := p.1, interimTranscript := p.2 }

/-- recognition.onerror: records the error state, enters error status and
requests the recognizer stop. -/
def onerror (s : AppState) (code : Str) : AppState :=
  { s with error := some (recognitionFailure code)
         , status := RecordingStatus.error
         , recRunning := false }

/-- recognition.onend: restart while recording, otherwise move to
complete unless already in error. -/
def onend (s : AppState) : AppState :=
  if s.status = RecordingStatus.recording then { s with recRunning := true }
  else if s.status ≠ RecordingStatus.error then { s with status := RecordingStatus.complete }
  else s

def handleDismissError (s : AppState) : AppState :=
  { s with error := none, status := RecordingStatus.idle }

/-- handleLanguageChange: the queued language write only lands after the
handler returns, so the stop performed for a recording session reads the
snapshot language; the stop itself never touches selectedLanguage, which
the final record update then sets. -/
def handleLanguageChange (s : AppState) (lang : Language) (now : Int) : AppState :=
  let s2 := if s.status = RecordingStatus.recording then handleStopRecording s now else s
  { s2 with selectedLanguage := lang }

/-- loadAndCleanTranscripts: reads the stored collection when present,
keeps the entries younger than one day, rewrites storage only when some
entry was dropped, and publishes the kept entries. -/
def loadAndCleanTranscripts (s : AppState) (now : Int) : AppState :=
  match s.storage with
  | none => s
  | some ts =>
    let valid := ts.filter (fun t => now - t.timestamp < ONE_DAY_MS)
    let st := if valid.length ≠ ts.length then some valid else some ts
    { s with storage := st, storedTranscripts := valid }

structure ExportFile where
  filename : Str
  content : Str
  deriving DecidableEq

/-- handleDownload: dateStr stands for the date part of the ISO timestamp
of the current instant; the blob content is exactly the given text. -/
def handleDownload (text : Str) (lang : Language) (dateStr : Str) : ExportFile :=
  let langCode : Str := if lang = Language.zhCN then "cn".data else "en".data
  { filename := "transcript-".data ++ langCode ++ "-".data ++ dateStr ++ ".txt".data
  , content := text }

/-- The filename pattern as the spec words it, with segment zh for the
Chinese locale; kept to compare against the implementation. -/
def specFilename (lang : Language) (dateStr : Str) : Str :=
  "transcript-".data ++ (if lang = Language.zhCN then "zh".data else "en".data)
    ++ "-".data ++ dateStr ++ ".txt".data

/-- State right after mount with the capability present: the effect has
installed the handlers and set the recognition ref. -/
def initState : AppState :=
  { status := RecordingStatus.idle
  , transcript := []
  , interimTranscript := []
  , error := none
  , selectedLanguage := Language.enUS
  , storedTranscripts := []
  , recordingStartTime := none
  , transcriptRef := []
  , recognitionRefSet := true
  , recRunning := false
  , storage := none
  , effectTranscript := [] }

theorem onresult_over (s : AppState) (rs : List ResultSlot) (now : Int)
    (h : MAX_WORD_COUNT < countWordsJS (s.transcriptRef ++ finalsConcat rs)) :
    onresult s rs now
      = { handleStopRecording { s with transcript := s.effectTranscript } now with
            transcript := s.transcript, error := some maxWordError } := by
  unfold onresult
  rw [resultLoop_eq]
  simp only []
  rw [if_pos h]

theorem onresult_under (s : AppState) (rs : List ResultSlot) (now : Int)
    (h : countWordsJS (s.transcriptRef ++ finalsConcat rs) ≤ MAX_WORD_COUNT) :
    onresult s rs now
      = { s with transcriptRef := s.transcriptRef ++ finalsConcat rs
               , transcript := s.transcriptRef ++ finalsConcat rs
               , interimTranscript := interimsConcat rs } := by
  unfold onresult
  rw [resultLoop_eq]
  simp only [List.nil_append]
  rw [if_neg (Nat.not_lt.mpr h)]

theorem stop_transcript (s : AppState) (now : Int) :
    (handleStopRecording s now).transcript = s.transcript := by
  unfold handleStopRecording
  split
  · split <;> rfl
  · rfl

theorem stop_transcriptRef (s : AppState) (now : Int) :
    (handleStopRecording s now).transcriptRef = s.transcriptRef := by
  unfold handleStopRecording
  split
  · split <;> rfl
  · rfl

theorem stop_noPersist (s : AppState) (now : Int) (h : trimList s.transcript = []) :
    (handleStopRecording s now).storedTranscripts = s.storedTranscripts ∧
    (handleStopRecording s now).storage = s.storage := by
  unfold handleStopRecording
  split
  · rw [if_neg (by simp [h])]
    exact ⟨rfl, rfl⟩
  · exact ⟨rfl, rfl⟩

theorem stop_status_complete (s : AppState) (now : Int)
    (hr : s.recognitionRefSet = true) :
    (handleStopRecording s now).status = RecordingStatus.complete := by
  unfold handleStopRecording
  rw [if_pos hr]
  split
  · rfl
  · rfl

/-- The string of n words consisting of the letter a separated by single
spaces; used to exercise the word ceiling without evaluating huge texts
in the kernel. -/
def repWords : Nat → Str
  | 0 => []
  | 1 => ['a']
  | n + 2 => 'a' :: ' ' :: repWords (n + 1)

theorem repWords_cons (n : Nat) : ∃ t, repWords (n + 1) = 'a' :: t := by
  cases n with
  | zero => exact ⟨[], rfl⟩
  | succ m => exact ⟨' ' :: repWords (m + 1), rfl⟩

theorem repWords_rev_cons (n : Nat) : ∃ t, (repWords (n + 1)).reverse = 'a' :: t := by
  induction n with
  | zero => exact ⟨[], rfl⟩
  | succ m ih =>
    obtain ⟨t, ht⟩ := ih
    refine ⟨t ++ [' ', 'a'], ?_⟩
    show ('a' :: ' ' :: repWords (m + 1)).reverse = 'a' :: (t ++ [' ', 'a'])
    rw [List.reverse_cons, List.reverse_cons, ht]
    simp

theorem countRunsAux_repWords (n : Nat) : countRunsAux (repWords (n + 1)) false = n + 1 := by
  induction n with
  | zero => decide
  | succ m ih =>
    show countRunsAux ('a' :: ' ' :: repWords (m + 1)) false = m + 2
    simp only [countRunsAux, show isWs 'a' = false from by decide,
      show isWs ' ' = true from by decide, Bool.false_eq_true, if_false, if_true, ih]
    omega

theorem trimList_repWords_space (n : Nat) :
    trimList (repWords (n + 1) ++ [' ']) = repWords (n + 1) := by
  obtain ⟨t, ht⟩ := repWords_cons n
  obtain ⟨u, hu⟩ := repWords_rev_cons n
  unfold trimList
  rw [ht]
  rw [show ('a' :: t) ++ [' '] = 'a' :: (t ++ [' ']) from rfl]
  rw [List.dropWhile_cons]
  rw [if_neg (by decide)]
  rw [show ('a' :: (t ++ [' '])).reverse = (('a' :: t) ++ [' ']).reverse from rfl]
  rw [List.reverse_append, ← ht, hu]
  show (List.dropWhile isWs (' ' :: ('a' :: u))).reverse = repWords (n + 1)
  rw [List.dropWhile_cons, if_pos (by decide), List.dropWhile_cons, if_neg (by decide)]
  rw [← hu, List.reverse_reverse]

theorem countWordsJS_repWords_space (n : Nat) :
    countWordsJS (repWords (n + 1) ++ [' ']) = n + 1 := by
  obtain ⟨t, ht⟩ := repWords_cons n
  unfold countWordsJS
  rw [trimList_repWords_space]
  simp only [ht]
  rw [if_neg (by simp)]
  rw [← ht, countRunsAux_repWords]

/-- Claim C1, counterexample: in the part_001 variant the final
accumulator is seeded with the previous committed text, so after a
second delivery of the identical single-final-slot set the transcript
holds the slot twice and is not the space-joined concatenation of the
final slots of the most recently delivered set. -/
theorem c1_counterexample :
    (onresult (onresult (handleStartRecording initState 0)
        [{ transcript := ['a'], isFinal := true }] 0)
        [{ transcript := ['a'], isFinal := true }] 0).transcript
      ≠ finalsConcat [{ transcript := ['a'], isFinal := true }] := by decide

/-- Claim C1 as amended: the App.tsx variant rebuilds the transcript
from scratch on each delivery, so after every delivery the committed
text equals the space-joined concatenation of the final slots of the
delivered set and the interim text equals the concatenation of its
non-final slots; the part_001 variant instead appends the final slots
of the delivered set to the previous committed text (when the word
ceiling is not breached). -/
theorem c1_theorem (s : AppState) (rs : List ResultSlot) (now : Int) :
    (onresultSimple s rs).transcript = finalsConcat rs ∧
    (onresultSimple s rs).interimTranscript = interimsConcat rs ∧
    (countWordsJS (s.transcriptRef ++ finalsConcat rs) ≤ MAX_WORD_COUNT →
      (onresult s rs now).transcript = s.transcriptRef ++ finalsConcat rs ∧
      (onresult s rs now).interimTranscript = interimsConcat rs) := by
  refine ⟨?_, ?_, fun h => ?_⟩
  · simp [onresultSimple, resultLoop_eq]
  · simp [onresultSimple, resultLoop_eq]
  · rw [onresult_under s rs now h]
    exact ⟨rfl, rfl⟩

/-- Claim C1, witness for the amended statement at a concrete input. -/
theorem c1_witness :
    (onresult initState [{ transcript := ['a'], isFinal := true }] 0).transcript
      = initState.transcriptRef ++ finalsConcat [{ transcript := ['a'], isFinal := true }] :=
  ((c1_theorem initState [{ transcript := ['a'], isFinal := true }] 0).2.2 (by decide)).1

/-- Claim C3, counterexample: delivering the identical result set twice
in a row through the part_001 handler does not leave the state fixed:
the final slot is appended a second time. -/
theorem c3_counterexample :
    onresult (onresult (handleStartRecording initState 0)
        [{ transcript := ['b'], isFinal := true }] 0)
        [{ transcript := ['b'], isFinal := true }] 0
      ≠ onresult (handleStartRecording initState 0)
        [{ transcript := ['b'], isFinal := true }] 0 := by decide

/-- Claim C3 as amended: repeated delivery of an identical result set is
idempotent for the App.tsx variant; for the part_001 variant the second
delivery appends the final slots of the set once more to the committed
text (shown below the word ceiling). -/
theorem c3_theorem :
    (∀ (s : AppState) (rs : List ResultSlot),
        onresultSimple (onresultSimple s rs) rs = onresultSimple s rs) ∧
    (∀ (s : AppState) (rs : List ResultSlot) (now : Int),
        countWordsJS (s.transcriptRef ++ finalsConcat rs) ≤ MAX_WORD_COUNT →
        countWordsJS (s.transcriptRef ++ finalsConcat rs ++ finalsConcat rs) ≤ MAX_WORD_COUNT →
        (onresult (onresult s rs now) rs now).transcript
          = s.transcriptRef ++ finalsConcat rs ++ finalsConcat rs) := by
  constructor
  · intro s rs
    rfl
  · intro s rs now h1 h2
    rw [onresult_under s rs now h1]
    rw [onresult_under _ rs now h2]

/-- Claim C3, witness for the amended statement at a concrete input. -/
theorem c3_witness :
    (onresult (onresult initState [{ transcript := ['b'], isFinal := true }] 0)
        [{ transcript := ['b'], isFinal := true }] 0).transcript
      = initState.transcriptRef ++ finalsConcat [{ transcript := ['b'], isFinal := true }]
          ++ finalsConcat [{ transcript := ['b'], isFinal := true }] :=
  c3_theorem.2 initState [{ transcript := ['b'], isFinal := true }] 0 (by decide) (by decide)

theorem stop_persist (s : AppState) (now : Int) (hr : s.recognitionRefSet = true)
    (ht : trimList s.transcript ≠ []) :
    handleStopRecording s now
      = { s with recRunning := false
               , status := RecordingStatus.complete
               , recordingStartTime := none
               , storage := some (s.storedTranscripts
                   ++ [{ id := intToStr now, text := s.transcript
                       , language := s.selectedLanguage, timestamp := now
                       , wordCount := countWordsJS s.transcript }])
               , storedTranscripts := s.storedTranscripts
                   ++ [{ id := intToStr now, text := s.transcript
                       , language := s.selectedLanguage, timestamp := now
                       , wordCount := countWordsJS s.transcript }] } := by
  unfold handleStopRecording
  rw [if_pos hr, if_pos ht]

theorem stop_empty (s : AppState) (now : Int) (hr : s.recognitionRefSet = true)
    (ht : trimList s.transcript = []) :
    handleStopRecording s now
      = { s with recRunning := false
               , status := RecordingStatus.complete
               , recordingStartTime := none } := by
  unfold handleStopRecording
  rw [if_pos hr, if_neg (by simp [ht])]

theorem langChange_recording (s : AppState) (lang : Language) (now : Int)
    (h : s.status = RecordingStatus.recording) :
    handleLanguageChange s lang now
      = { handleStopRecording s now with selectedLanguage := lang } := by
  unfold handleLanguageChange
  rw [if_pos h]

theorem finalsConcat_single (w : Str) :
    finalsConcat [{ transcript := w, isFinal := true }] = w ++ [' '] := by
  simp [finalsConcat]

theorem countWordsJS_repWords_88889 :
    countWordsJS (repWords 88889 ++ [' ']) = 88889 := by
  have h := countWordsJS_repWords_space 88888
  norm_num at h
  exact h

/-- Claim C2, counterexample: start with an empty transcript and deliver
one final slot of 88889 words. The limit cycle fires (status complete,
limit error raised), yet the crossing update is not applied: the
committed text is still empty, so nothing is persisted at all and the
persisted collection does not include the crossing update. -/
theorem c2_counterexample :
    ((onresult (handleStartRecording initState 0)
        [{ transcript := repWords 88889, isFinal := true }] 0).status
          = RecordingStatus.complete ∧
     (onresult (handleStartRecording initState 0)
        [{ transcript := repWords 88889, isFinal := true }] 0).error
          = some maxWordError) ∧
    (onresult (handleStartRecording initState 0)
        [{ transcript := repWords 88889, isFinal := true }] 0).transcript = [] ∧
    (onresult (handleStartRecording initState 0)
        [{ transcript := repWords 88889, isFinal := true }] 0).storedTranscripts = [] ∧
    finalsConcat [{ transcript := repWords 88889, isFinal := true }] ≠ [] := by
  have h3 : countWordsJS ((handleStartRecording initState 0).transcriptRef
      ++ finalsConcat [{ transcript := repWords 88889, isFinal := true }]) = 88889 := by
    rw [finalsConcat_single]
    show countWordsJS ([] ++ (repWords 88889 ++ [' '])) = 88889
    rw [List.nil_append, countWordsJS_repWords_88889]
  have hM : MAX_WORD_COUNT = 88888 := rfl
  have hover : MAX_WORD_COUNT < countWordsJS ((handleStartRecording initState 0).transcriptRef
      ++ finalsConcat [{ transcript := repWords 88889, isFinal := true }]) := by omega
  rw [onresult_over _ _ _ hover, stop_empty]
  · refine ⟨⟨rfl, rfl⟩, rfl, rfl, ?_⟩
    rw [finalsConcat_single]
    intro hEq
    exact List.cons_ne_nil ' ' [] (List.append_eq_nil.mp hEq).2
  · rfl
  · rfl

/-- Claim C2 as amended: with the ceiling MAX = 88888, a result-update
whose resulting word count is MAX + 1 triggers exactly one
stop-and-error cycle and one whose resulting word count is exactly MAX
triggers none; the handler returns before applying the crossing update,
so the committed text and the ref keep their previous values. The stop
invoked on breach is the closure captured at the last effect run, whose
transcript read is the captured value; that capture is empty for any
session started normally, so a breach persists nothing at all — neither
the crossing update nor the currently accumulated text. -/
theorem c2_theorem (s : AppState) (rs : List ResultSlot) (now : Int) :
    (countWordsJS (s.transcriptRef ++ finalsConcat rs) = MAX_WORD_COUNT + 1 →
       onresult s rs now
         = { handleStopRecording { s with transcript := s.effectTranscript } now with
               transcript := s.transcript, error := some maxWordError } ∧
       (onresult s rs now).transcript = s.transcript ∧
       (onresult s rs now).transcriptRef = s.transcriptRef ∧
       (s.effectTranscript = [] →
          (onresult s rs now).storedTranscripts = s.storedTranscripts ∧
          (onresult s rs now).storage = s.storage ∧
          (onresult s rs now).error = some maxWordError ∧
          (s.recognitionRefSet = true →
            (onresult s rs now).status = RecordingStatus.complete))) ∧
    (countWordsJS (s.transcriptRef ++ finalsConcat rs) = MAX_WORD_COUNT →
       onresult s rs now
         = { s with transcriptRef := s.transcriptRef ++ finalsConcat rs
                  , transcript := s.transcriptRef ++ finalsConcat rs
                  , interimTranscript := interimsConcat rs } ∧
       (onresult s rs now).status = s.status ∧
       (onresult s rs now).error = s.error ∧
       (onresult s rs now).storedTranscripts = s.storedTranscripts) := by
  constructor
  · intro h
    have hover : MAX_WORD_COUNT < countWordsJS (s.transcriptRef ++ finalsConcat rs) := by omega
    rw [onresult_over s rs now hover]
    refine ⟨rfl, rfl, ?_, ?_⟩
    · exact stop_transcriptRef { s with transcript := s.effectTranscript } now
    · intro h2
      have ht : trimList ({ s with transcript := s.effectTranscript } : AppState).transcript
          = [] := by
        show trimList s.effectTranscript = []
        rw [h2]
        rfl
      obtain ⟨hS, hG⟩ := stop_noPersist { s with transcript := s.effectTranscript } now ht
      exact ⟨hS, hG, rfl, fun hr =>
        stop_status_complete { s with transcript := s.effectTranscript } now hr⟩
  · intro h
    have hunder : countWordsJS (s.transcriptRef ++ finalsConcat rs) ≤ MAX_WORD_COUNT := by omega
    rw [onresult_under s rs now hunder]
    exact ⟨rfl, rfl, rfl, rfl⟩

/-- Claim C2, witness: a breach delivered at a recording state whose
visible text is non-empty while the effect-captured text is empty; the
stale stop leaves the stored collection untouched. -/
theorem c2_witness :
    (onresult { handleStartRecording initState 0 with transcript := "hi ".data }
        [{ transcript := repWords 88889, isFinal := true }] 0).storedTranscripts
      = ({ handleStartRecording initState 0 with
            transcript := "hi ".data } : AppState).storedTranscripts := by
  have h : countWordsJS (({ handleStartRecording initState 0 with
        transcript := "hi ".data } : AppState).transcriptRef
      ++ finalsConcat [{ transcript := repWords 88889, isFinal := true }])
        = MAX_WORD_COUNT + 1 := by
    rw [finalsConcat_single]
    show countWordsJS ([] ++ (repWords 88889 ++ [' '])) = MAX_WORD_COUNT + 1
    rw [List.nil_append, countWordsJS_repWords_88889]
    norm_num [MAX_WORD_COUNT]
  exact (((c2_theorem { handleStartRecording initState 0 with transcript := "hi ".data }
    [{ transcript := repWords 88889, isFinal := true }] 0).1 h).2.2.2 rfl).1

theorem loadAndClean_some (s : AppState) (now : Int) (ts : List StoredTranscript)
    (hst : s.storage = some ts) :
    loadAndCleanTranscripts s now
      = { s with
          storage := (if (ts.filter (fun t => now - t.timestamp < ONE_DAY_MS)).length ≠ ts.length
              then some (ts.filter (fun t => now - t.timestamp < ONE_DAY_MS)) else some ts)
        , storedTranscripts := ts.filter (fun t => now - t.timestamp < ONE_DAY_MS) } := by
  unfold loadAndCleanTranscripts
  rw [hst]

/-- Claim C4: pruning keeps exactly the entries strictly younger than one
day, so the expiry predicate is now minus createdAt at least 24 hours; a
record created 24 hours and one millisecond ago is dropped from both the
published and the persisted collection, one created 23 hours 59 minutes
ago is kept, and the persisted value always equals the kept entries. -/
theorem c4_theorem (s : AppState) (now : Int) (ts : List StoredTranscript)
    (hst : s.storage = some ts) :
    (loadAndCleanTranscripts s now).storedTranscripts
        = ts.filter (fun t => now - t.timestamp < ONE_DAY_MS) ∧
    (loadAndCleanTranscripts s now).storage
        = some (ts.filter (fun t => now - t.timestamp < ONE_DAY_MS)) ∧
    (∀ t, t ∈ (loadAndCleanTranscripts s now).storedTranscripts
        ↔ t ∈ ts ∧ ¬(now - t.timestamp ≥ ONE_DAY_MS)) ∧
    (∀ t ∈ ts, t.timestamp = now - ONE_DAY_MS - 1
        → t ∉ (loadAndCleanTranscripts s now).storedTranscripts) ∧
    (∀ t ∈ ts, t.timestamp = now - (ONE_DAY_MS - 60000)
        → t ∈ (loadAndCleanTranscripts s now).storedTranscripts) := by
  rw [loadAndClean_some s now ts hst]
  refine ⟨rfl, ?_, ?_, ?_, ?_⟩
  · by_cases hl2 : (ts.filter (fun t => now - t.timestamp < ONE_DAY_MS)).length = ts.length
    · have hfe : ts.filter (fun t => now - t.timestamp < ONE_DAY_MS) = ts :=
        (List.filter_sublist ts).eq_of_length hl2
      simp [hfe]
    · simp [hl2]
  · intro t
    simp [List.mem_filter, not_le]
  · intro t ht hts
    simp only [AppState.storedTranscripts, List.mem_filter, decide_eq_true_eq, hts]
    rintro ⟨-, hc⟩
    omega
  · intro t ht hts
    simp only [AppState.storedTranscripts, List.mem_filter, decide_eq_true_eq, hts]
    exact ⟨ht, by omega⟩

def c4old : StoredTranscript :=
  { id := [], text := ['x'], language := Language.enUS
  , timestamp := 0 - ONE_DAY_MS - 1, wordCount := 1 }

def c4new : StoredTranscript :=
  { id := [], text := ['y'], language := Language.enUS
  , timestamp := 0 - (ONE_DAY_MS - 60000), wordCount := 1 }

def c4StateW : AppState := { initState with storage := some [c4old, c4new] }

/-- Claim C4, witness: a two-entry collection at the two boundary ages,
pruned at instant zero. -/
theorem c4_witness :
    c4old ∉ (loadAndCleanTranscripts c4StateW 0).storedTranscripts ∧
    c4new ∈ (loadAndCleanTranscripts c4StateW 0).storedTranscripts :=
  ⟨(c4_theorem c4StateW 0 [c4old, c4new] rfl).2.2.2.1 c4old (by decide) rfl
  , (c4_theorem c4StateW 0 [c4old, c4new] rfl).2.2.2.2 c4new (by decide) rfl⟩

/-- Claim C5: a session ended by the recognition error callback never
persists anything: the published and persisted collections and the
committed text are unchanged and the status becomes error, for every
session state, including states with non-empty committed text. -/
theorem c5_theorem (s : AppState) (code : Str) :
    (onerror s code).storedTranscripts = s.storedTranscripts ∧
    (onerror s code).storage = s.storage ∧
    (onerror s code).transcript = s.transcript ∧
    (onerror s code).status = RecordingStatus.error :=
  ⟨rfl, rfl, rfl, rfl⟩

/-- Claim C6: starting a session, delivering one final slot reading
hello world and stopping appends exactly one record whose text is the
slot followed by the separating space and whose word count is two, the
persisted value matches, and the status becomes complete; stopping with
an empty trimmed transcript appends nothing. -/
theorem c6_theorem (s : AppState) (n1 n2 n3 : Int) (h : s.recognitionRefSet = true) :
    ((handleStopRecording (onresult (handleStartRecording s n1)
          [{ transcript := "hello world".data, isFinal := true }] n2) n3).storedTranscripts
        = s.storedTranscripts
            ++ [{ id := intToStr n3, text := "hello world ".data
                , language := s.selectedLanguage, timestamp := n3, wordCount := 2 }] ∧
     (handleStopRecording (onresult (handleStartRecording s n1)
          [{ transcript := "hello world".data, isFinal := true }] n2) n3).storage
        = some (s.storedTranscripts
            ++ [{ id := intToStr n3, text := "hello world ".data
                , language := s.selectedLanguage, timestamp := n3, wordCount := 2 }]) ∧
     (handleStopRecording (onresult (handleStartRecording s n1)
          [{ transcript := "hello world".data, isFinal := true }] n2) n3).status
        = RecordingStatus.complete) ∧
    (∀ (s2 : AppState) (now : Int), trimList s2.transcript = [] →
        (handleStopRecording s2 now).storedTranscripts = s2.storedTranscripts ∧
        (handleStopRecording s2 now).storage = s2.storage) := by
  refine ⟨?_, fun s2 now ht => stop_noPersist s2 now ht⟩
  have hu : countWordsJS ((handleStartRecording s n1).transcriptRef
      ++ finalsConcat [{ transcript := "hello world".data, isFinal := true }])
        ≤ MAX_WORD_COUNT := by
    rw [show (handleStartRecording s n1).transcriptRef = [] from rfl]
    decide
  rw [onresult_under _ _ _ hu, stop_persist]
  · exact ⟨rfl, rfl, rfl⟩
  · exact h
  · exact (by decide :
      trimList ([] ++ finalsConcat [{ transcript := "hello world".data, isFinal := true }]) ≠ [])

/-- Claim C6, witness at the post-mount initial state. -/
theorem c6_witness :
    (handleStopRecording (onresult (handleStartRecording initState 0)
        [{ transcript := "hello world".data, isFinal := true }] 0) 0).status
      = RecordingStatus.complete :=
  ((c6_theorem initState 0 0 0 rfl).1).2.2

/-- Claim C7: changing the language while recording stops the session
first; the queued language write lands only after the handler, so the
flushed record carries the recording language while the controller ends
with the new language and status complete; the captured text is kept. -/
theorem c7_theorem (s : AppState) (n1 n2 n3 : Int) (h : s.recognitionRefSet = true) :
    (handleLanguageChange (onresult (handleStartRecording
          { s with selectedLanguage := Language.enUS } n1)
          [{ transcript := "test".data, isFinal := true }] n2) Language.zhCN n3).storedTranscripts
        = s.storedTranscripts
            ++ [{ id := intToStr n3, text := "test ".data
                , language := Language.enUS, timestamp := n3, wordCount := 1 }] ∧
    (handleLanguageChange (onresult (handleStartRecording
          { s with selectedLanguage := Language.enUS } n1)
          [{ transcript := "test".data, isFinal := true }] n2) Language.zhCN n3).selectedLanguage
        = Language.zhCN ∧
    (handleLanguageChange (onresult (handleStartRecording
          { s with selectedLanguage := Language.enUS } n1)
          [{ transcript := "test".data, isFinal := true }] n2) Language.zhCN n3).status
        = RecordingStatus.complete := by
  have hu : countWordsJS ((handleStartRecording
      { s with selectedLanguage := Language.enUS } n1).transcriptRef
      ++ finalsConcat [{ transcript := "test".data, isFinal := true }])
        ≤ MAX_WORD_COUNT := by
    rw [show (handleStartRecording
      { s with selectedLanguage := Language.enUS } n1).transcriptRef = [] from rfl]
    decide
  rw [onresult_under _ _ _ hu, langChange_recording, stop_persist]
  · exact ⟨rfl, rfl, rfl⟩
  · exact h
  · exact (by decide :
      trimList ([] ++ finalsConcat [{ transcript := "test".data, isFinal := true }]) ≠ [])
  · rfl

/-- Claim C7, witness at the post-mount initial state. -/
theorem c7_witness :
    (handleLanguageChange (onresult (handleStartRecording
        { initState with selectedLanguage := Language.enUS } 0)
        [{ transcript := "test".data, isFinal := true }] 0) Language.zhCN 0).selectedLanguage
      = Language.zhCN :=
  (c7_theorem initState 0 0 0 rfl).2.1


/-- Claim C8: the end callback restarts the recognizer and keeps status
recording when a recording is in progress, keeps complete and error as
they are, and moves every other status to complete; it never resurrects
recording from a finished session and never touches the texts or the
stored collection. -/
theorem c8_theorem (s : AppState) :
    ((onend s).status
        = (if s.status = RecordingStatus.recording then RecordingStatus.recording
           else if s.status = RecordingStatus.error then RecordingStatus.error
           else RecordingStatus.complete)) ∧
    (s.status = RecordingStatus.recording → (onend s).recRunning = true) ∧
    (onend s).transcript = s.transcript ∧
    (onend s).storedTranscripts = s.storedTranscripts := by
  unfold onend
  by_cases h1 : s.status = RecordingStatus.recording
  · simp [h1]
  · by_cases h2 : s.status = RecordingStatus.error
    · simp [h1, h2]
    · simp [h1, h2]

/-- Claim C8, witness: the restart branch at a freshly started session. -/
theorem c8_witness :
    (onend (handleStartRecording initState 0)).recRunning = true :=
  (c8_theorem (handleStartRecording initState 0)).2.1 rfl

/-- Claim C9, counterexample: for the Chinese locale the implementation
names the file with segment cn, not the segment zh stated by the spec. -/
theorem c9_counterexample :
    (handleDownload ['x'] Language.zhCN "2026-10-11".data).filename
      ≠ specFilename Language.zhCN "2026-10-11".data := by decide

/-- Claim C9 as amended: the export artifact content is exactly the raw
transcript text and the filename is transcript, dash, language segment,
dash, the ISO date, dot txt, where the language segment is en for the
English locale and cn (not zh) for the Chinese locale; for the English
locale the spec pattern is met verbatim. -/
theorem c9_theorem (text : Str) (lang : Language) (dateStr : Str) :
    (handleDownload text lang dateStr).filename
      = "transcript-".data ++ (if lang = Language.zhCN then "cn".data else "en".data)
          ++ "-".data ++ dateStr ++ ".txt".data ∧
    (handleDownload text lang dateStr).content = text ∧
    (handleDownload text Language.enUS dateStr).filename = specFilename Language.enUS dateStr :=
  ⟨rfl, rfl, rfl⟩

/-- Claim C10: dismissing the error banner unconditionally resets the
status to idle and clears the error from every status, leaving the
committed text and both transcript collections untouched. -/
theorem c10_theorem (s : AppState) :
    (handleDismissError s).status = RecordingStatus.idle ∧
    (handleDismissError s).error = none ∧
    (handleDismissError s).transcript = s.transcript ∧
    (handleDismissError s).storedTranscripts = s.storedTranscripts ∧
    (handleDismissError s).storage = s.storage :=
  ⟨rfl, rfl, rfl, rfl, rfl⟩

end VocalText
